import Mathlib

/-!
Verification of the AutoForge web-harvesting engine against its specification.

The definitions below are a shallow embedding of the crawler subsystem:
* `src/autoforge/crawler/pwc_crawler.py` — `PapersWithCodeCrawler`
  (`_get_with_retry`, `_parse_paper_item`, `crawl_papers_batch`,
  `_save_paper_list`),
* `src/autoforge/crawler/parsers.py` — `HFModelListParser` /
  `HFModelCardParser`,
* `src/autoforge/crawler/hf_crawler.py` — `HuggingFaceCrawler`
  (`crawl_models_by_task`, `_save_model_list`),
* `src/autoforge/crawler/task_manager.py` — `TaskManager.get_task_by_tag`.

Machine-level aspects (real sleeping, sockets, the filesystem) are modelled
by explicit data: attempt outcomes are an `Nat → Outcome` oracle, the file
system is an association list from paths to written payloads, and time is a
string parameter threaded to where `datetime.now()` appears in the source.
-/

namespace AutoForge

/-! ## Fetch-retry layer (`PapersWithCodeCrawler._get_with_retry`)

The Python loop is
```
for attempt in range(self.max_retries + 1):
    ... time.sleep(...) ...
    response = self.session.get(url, params=params, timeout=self.timeout)
    response.raise_for_status()
    return response
  except (Timeout, ConnectionError): if attempt == self.max_retries: raise
  except HTTPError as e:
    if e.response.status_code == 404: raise
    if attempt == self.max_retries: raise
  except Exception: if attempt == self.max_retries: raise
```
An attempt's outcome (what `session.get` + `raise_for_status` produced) is
modelled by `Outcome`; the surfaced exception by `FetchErr`. -/

/-- Outcome of one GET attempt, as seen after `raise_for_status`:
a 2xx/3xx response returns a body, a 4xx/5xx response raises `HTTPError`
with its status, and the transport can raise `Timeout`/`ConnectionError`. -/
inductive Outcome where
  | success (body : String)
  | timeout
  | connError
  | httpError (status : Nat)
deriving DecidableEq, Repr

/-- The error surfaced by `_get_with_retry` (the re-raised exception). -/
inductive FetchErr where
  | timeout
  | connFailure
  | notFound
  | httpError (status : Nat)
deriving DecidableEq, Repr

/-- How the final (budget-exhausting) attempt's outcome is surfaced:
a success is returned, a `Timeout`/`ConnectionError` is re-raised as such,
and an `HTTPError` is re-raised carrying its status, with 404 being the
not-found case. -/
def classify : Outcome → Except FetchErr String
  | Outcome.success body => Except.ok body
  | Outcome.timeout => Except.error FetchErr.timeout
  | Outcome.connError => Except.error FetchErr.connFailure
  | Outcome.httpError s =>
      Except.error (if s = 404 then FetchErr.notFound else FetchErr.httpError s)

/-- An outcome the loop retries on: timeouts, connection errors, and any
HTTP error other than 404 (the code re-raises 404 immediately). -/
def retryable : Outcome → Bool
  | Outcome.success _ => false
  | Outcome.timeout => true
  | Outcome.connError => true
  | Outcome.httpError s => s ≠ 404

/-- The retry loop of `_get_with_retry`, from attempt index `attempt` with
`remaining` further attempts allowed after this one (`remaining = 0` is the
`attempt == self.max_retries` case).  `outcomes i` is what attempt `i`
produces.  Returns the loop's result together with the number of attempts
performed. -/
def retryGo (outcomes : Nat → Outcome) (attempt : Nat) :
    Nat → Except FetchErr String × Nat
  | 0 => (classify (outcomes attempt), 1)
  | remaining + 1 =>
    match outcomes attempt with
    | Outcome.success body => (Except.ok body, 1)
    | Outcome.httpError s =>
        if s = 404 then (Except.error FetchErr.notFound, 1)
        else
          let r := retryGo outcomes (attempt + 1) remaining
          (r.1, r.2 + 1)
    | Outcome.timeout =>
        let r := retryGo outcomes (attempt + 1) remaining
        (r.1, r.2 + 1)
    | Outcome.connError =>
        let r := retryGo outcomes (attempt + 1) remaining
        (r.1, r.2 + 1)

/-- `_get_with_retry` with retry budget `maxRetries` (`self.max_retries`):
the loop `for attempt in range(max_retries + 1)`, so the attempt budget is
`maxRetries + 1`. -/
def get_with_retry (maxRetries : Nat) (outcomes : Nat → Outcome) :
    Except FetchErr String × Nat :=
  retryGo outcomes 0 maxRetries

theorem retryGo_all_retryable (outcomes : Nat → Outcome) :
    ∀ remaining attempt,
      (∀ i, attempt ≤ i → i ≤ attempt + remaining → retryable (outcomes i) = true) →
      retryGo outcomes attempt remaining =
        (classify (outcomes (attempt + remaining)), remaining + 1) := by
  intro remaining
  induction remaining with
  | zero => intro attempt _; simp [retryGo]
  | succ r ih =>
    intro attempt h
    have hattempt : retryable (outcomes attempt) = true :=
      h attempt le_rfl (Nat.le_add_right _ _)
    have hrec : retryGo outcomes (attempt + 1) r =
        (classify (outcomes (attempt + 1 + r)), r + 1) := by
      apply ih
      intro i h1 h2
      exact h i (Nat.le_of_succ_le h1) (by omega)
    have harg : attempt + 1 + r = attempt + (r + 1) := by omega
    cases hout : outcomes attempt with
    | success body => rw [hout] at hattempt; simp [retryable] at hattempt
    | timeout => simp [retryGo, hout, hrec, harg]
    | connError => simp [retryGo, hout, hrec, harg]
    | httpError s =>
      rw [hout] at hattempt
      have hs : ¬ s = 404 := by
        simpa [retryable] using hattempt
      simp [retryGo, hout, hs, hrec, harg]

/-- C1: with attempt budget `N = maxRetries + 1` (so every `N ≥ 1` arises as
some `maxRetries`), if every attempt within the budget produces a retryable
outcome — timeout, connection error, or retryable HTTP status — then
`_get_with_retry` performs exactly `N` attempts and surfaces the last
attempt's classified error to the caller. -/
theorem retry_exhaustion_surfaces_last_error (maxRetries : Nat)
    (outcomes : Nat → Outcome)
    (h : ∀ i, i ≤ maxRetries → retryable (outcomes i) = true) :
    get_with_retry maxRetries outcomes =
      (classify (outcomes maxRetries), maxRetries + 1) ∧
    ∃ e : FetchErr, classify (outcomes maxRetries) = Except.error e := by
  constructor
  · have := retryGo_all_retryable outcomes maxRetries 0
      (fun i _ h2 => h i (by omega))
    simpa [get_with_retry] using this
  · have hlast : retryable (outcomes maxRetries) = true := h maxRetries le_rfl
    cases hout : outcomes maxRetries with
    | success body => rw [hout] at hlast; simp [retryable] at hlast
    | timeout => exact ⟨FetchErr.timeout, by simp [hout, classify]⟩
    | connError => exact ⟨FetchErr.connFailure, by simp [hout, classify]⟩
    | httpError s =>
      rw [hout] at hlast
      have hs : ¬ s = 404 := by simpa [retryable] using hlast
      exact ⟨FetchErr.httpError s, by simp [hout, classify, hs]⟩

theorem retry_exhaustion_surfaces_last_error_witness :
    (∀ i, i ≤ 2 → retryable ((fun _ => Outcome.timeout) i) = true) ∧
    get_with_retry 2 (fun _ => Outcome.timeout) =
      (classify ((fun _ => Outcome.timeout) 2), 2 + 1) :=
  ⟨by decide,
   (retry_exhaustion_surfaces_last_error 2 (fun _ => Outcome.timeout)
     (by decide)).1⟩

/-- C2: if the first attempt yields HTTP 404, then for every retry budget
exactly one attempt is made and the call fails with the not-found error. -/
theorem notFound_is_terminal (maxRetries : Nat) (outcomes : Nat → Outcome)
    (h : outcomes 0 = Outcome.httpError 404) :
    get_with_retry maxRetries outcomes =
      (Except.error FetchErr.notFound, 1) := by
  cases maxRetries with
  | zero => simp [get_with_retry, retryGo, h, classify]
  | succ r => simp [get_with_retry, retryGo, h]

theorem notFound_is_terminal_witness :
    (fun _ => Outcome.httpError 404) 0 = Outcome.httpError 404 ∧
    get_with_retry 4 (fun _ => Outcome.httpError 404) =
      (Except.error FetchErr.notFound, 1) :=
  ⟨rfl, notFound_is_terminal 4 (fun _ => Outcome.httpError 404) rfl⟩

/-! ## Backoff delay (`_get_with_retry`, lines 102–109)

```
if attempt > 0:
    jitter = random.uniform(0.5, 2.0)
    sleep_time = self.delay * (2 ** attempt) * jitter
    time.sleep(sleep_time)
else:
    time.sleep(self.delay)
```
`attempt` is the 0-based loop index, so the k-th retry (the (k+1)-th overall
attempt) has `attempt = k`.  The jitter drawn from `[0.5, 2.0]` is taken as
a parameter. -/

/-- Sleep performed before the attempt with 0-based index `attempt`. -/
def sleepBefore (delay jitter : ℚ) (attempt : Nat) : ℚ :=
  if 0 < attempt then delay * 2 ^ attempt * jitter else delay

/-- C7 counterexample: before the first retry (`k = 1`) with `delay = 1` and
`jitter = 1` the code sleeps `1 * 2 ^ 1 * 1 = 2`, not the claimed
`baseDelay * 2 ^ (k - 1) * j = 1`. -/
theorem backoff_not_two_pow_pred :
    sleepBefore 1 1 1 ≠ (1 : ℚ) * 2 ^ (1 - 1) * 1 := by
  norm_num [sleepBefore]

/-- C7 amended: before retry `k ≥ 1` (the (k+1)-th overall attempt) the
fetcher sleeps `baseDelay * 2 ^ k * jitter` — equivalently
`baseDelay * 2 ^ (m - 1) * jitter` for the 1-based overall attempt number
`m = k + 1` — and the very first attempt sleeps only the fixed delay. -/
theorem backoff_two_pow_retry (delay jitter : ℚ) (k : Nat) (hk : 0 < k) :
    sleepBefore delay jitter k = delay * 2 ^ k * jitter ∧
    sleepBefore delay jitter 0 = delay := by
  constructor
  · simp [sleepBefore, hk]
  · simp [sleepBefore]

theorem backoff_two_pow_retry_witness :
    sleepBefore 1 1 1 = (1 : ℚ) * 2 ^ 1 * 1 :=
  (backoff_two_pow_retry 1 1 1 (by norm_num)).1

/-! ## HTML documents

BeautifulSoup trees are modelled as rose trees.  An element carries its tag
name, its (multi-valued) `class` attribute, its remaining attributes, and
its children; `find_all` is a pre-order traversal of the descendants.
Regular expressions appearing in the source are implemented as the
executable predicates they denote (over ASCII, where Python's `\w` is
`[A-Za-z0-9_]`). -/

inductive Node where
  | elem (tag : String) (classes : List String)
      (attrs : List (String × String)) (children : List Node)
  | text (s : String)
deriving Repr

def Node.children : Node → List Node
  | Node.elem _ _ _ cs => cs
  | Node.text _ => []

def Node.tagName : Node → Option String
  | Node.elem t _ _ _ => some t
  | Node.text _ => none

def Node.classList : Node → List String
  | Node.elem _ c _ _ => c
  | Node.text _ => []

/-- `n[k]` / `n.get(k)`: look up attribute `k`. -/
def attrOf (n : Node) (k : String) : Option String :=
  match n with
  | Node.elem _ _ attrs _ => (attrs.find? (fun p => p.1 == k)).map (fun p => p.2)
  | Node.text _ => none

mutual

/-- `.text` / `.get_text()`: concatenation of all descendant text. -/
def nodeText : Node → String
  | Node.text s => s
  | Node.elem _ _ _ cs => nodesText cs

/-- Text of a list of nodes, in document order. -/
def nodesText : List Node → String
  | [] => ""
  | n :: ns => nodeText n ++ nodesText ns

end

mutual

/-- All nodes of a subtree satisfying `p`, in document order (the node
itself included). -/
def collect (p : Node → Bool) : Node → List Node
  | Node.text s => if p (Node.text s) then [Node.text s] else []
  | Node.elem t c a cs =>
    (if p (Node.elem t c a cs) then [Node.elem t c a cs] else []) ++
      collectList p cs

/-- `find_all(p)` over a forest: matching nodes in document order. -/
def collectList (p : Node → Bool) : List Node → List Node
  | [] => []
  | n :: ns => collect p n ++ collectList p ns

end

/-- BeautifulSoup's `limit=` argument: a falsy limit (`0`) means no limit,
otherwise at most `limit` results are returned. -/
def bsLimit (limit : Nat) (xs : List α) : List α :=
  if limit = 0 then xs else xs.take limit

/-! ### String predicates for the parser regexes -/

/-- `need` occurs as a contiguous substring of `hay` (`re.search` with a
literal alternative). -/
def containsSubList (need : List Char) : List Char → Bool
  | [] => need.isEmpty
  | c :: cs => need.isPrefixOf (c :: cs) || containsSubList need cs

def containsSub (hay need : String) : Bool :=
  containsSubList need.data hay.data

/-- A character of Python's `[\w-]` (ASCII). -/
def isWordDashChar (c : Char) : Bool :=
  c.isAlphanum || c == '_' || c == '-'

/-- A character of Python's `[\w.-]` (ASCII). -/
def isWordDotDashChar (c : Char) : Bool :=
  c.isAlphanum || c == '_' || c == '.' || c == '-'

/-- The model-href shape `^/[\w-]+/[\w.-]+$` of `parsers.py`: a slash, a
non-empty `[\w-]` segment, a slash, a non-empty `[\w.-]` segment, nothing
else. -/
def isModelHref (s : String) : Bool :=
  match s.data with
  | '/' :: rest =>
    let seg1 := rest.takeWhile (fun c => c != '/')
    (match rest.dropWhile (fun c => c != '/') with
     | '/' :: seg2 =>
       !seg1.isEmpty && seg1.all isWordDashChar &&
         !seg2.isEmpty && seg2.all isWordDotDashChar
     | _ => false)
  | _ => false

/-- Python's `s.strip('/')`. -/
def stripSlashes (s : String) : String :=
  String.mk (((s.data.dropWhile (fun c => c == '/')).reverse.dropWhile
    (fun c => c == '/')).reverse)

/-- Python's `s.strip()`: drop leading and trailing whitespace. -/
def pyStrip (s : String) : String :=
  String.mk (((s.data.dropWhile Char.isWhitespace).reverse.dropWhile
    Char.isWhitespace).reverse)

/-- `soup.find_all(t)` element filter. -/
def isTagName (t : String) : Node → Bool
  | Node.elem tg _ _ _ => tg == t
  | Node.text _ => false

/-- `find('a', href=re.compile(r'^/[\w-]+/[\w.-]+$'))` element filter. -/
def isModelLink (n : Node) : Bool :=
  isTagName "a" n && (attrOf n "href").any isModelHref

/-- `find_all('div', class_=re.compile(r'model|card'))` element filter
(a class-attribute regex matches if it matches one of the classes). -/
def isModelCardDiv (n : Node) : Bool :=
  isTagName "div" n &&
    n.classList.any (fun c => containsSub c "model" || containsSub c "card")

/-- `find_all(['span', 'div'], class_=re.compile(r'tag|label|badge'))`
element filter. -/
def isTagLabelBadge (n : Node) : Bool :=
  (isTagName "span" n || isTagName "div" n) &&
    n.classList.any (fun c =>
      containsSub c "tag" || containsSub c "label" || containsSub c "badge")

/-! ## HF listing extraction (`HFModelListParser`)

A listing record.  The optional quick stats (`downloads`, `likes`,
`updated`, `stats`), which are extracted best-effort from surrounding text
nodes and which no verified property mentions, are not modelled; absence of
a `tags` key is modelled as `[]`. -/

structure ModelInfo where
  model_id : String
  name : String
  url : String
  tags : List String
deriving DecidableEq, Repr

/-- Tag extraction of `_parse_article_card` (lines 100–108): the text of
every tag/label/badge descendant, kept only when non-empty and shorter than
50 characters. -/
def cardTags (article : Node) : List String :=
  ((collectList isTagLabelBadge article.children).map
      (fun t => pyStrip (nodeText t))).filter
    (fun s => !s.isEmpty && decide (s.length < 50))

/-- `_parse_article_card`: the first model-shaped link yields identifier,
name (falling back to the identifier when the link text is empty) and URL;
without such a link the card yields no identifier and is dropped by the
caller (modelled as `none`). -/
def parseArticleCard (article : Node) : Option ModelInfo :=
  match (collectList isModelLink article.children).head? with
  | some link =>
    let href := (attrOf link "href").getD ""
    let mid := stripSlashes href
    let nm := pyStrip (nodeText link)
    some ⟨mid, if nm = "" then mid else nm, href, cardTags article⟩
  | none => none

/-- `_parse_div_card` (its `downloads`/`likes` text scan is not modelled). -/
def parseDivCard (div : Node) : Option ModelInfo :=
  match (collectList isModelLink div.children).head? with
  | some link =>
    let href := (attrOf link "href").getD ""
    let mid := stripSlashes href
    let nm := pyStrip (nodeText link)
    some ⟨mid, if nm = "" then mid else nm, href, []⟩
  | none => none

/-- `_parse_link` (its `stats` scan of the parent's text is not modelled). -/
def parseLink (link : Node) : Option ModelInfo :=
  let href := (attrOf link "href").getD ""
  if isModelHref href then
    let mid := stripSlashes href
    let nm := pyStrip (nodeText link)
    some ⟨mid, if nm = "" then mid else nm, href, []⟩
  else none

/-- Strategy 1's accumulation loop: parse each article, keeping records
whose `model_id` is truthy. -/
def articleRecords : List Node → List ModelInfo
  | [] => []
  | a :: rest =>
    match parseArticleCard a with
    | some mi =>
      if mi.model_id ≠ "" then mi :: articleRecords rest else articleRecords rest
    | none => articleRecords rest

/-- The accumulation loop of strategies 2 and 3: append records whose
`model_id` is truthy and break once `top_k` records are collected. -/
def cardsUpTo (top_k : Nat) (step : Node → Option ModelInfo) :
    List Node → List ModelInfo → List ModelInfo
  | [], acc => acc
  | x :: xs, acc =>
    match step x with
    | some mi =>
      if mi.model_id ≠ "" then
        let acc2 := acc ++ [mi]
        if top_k ≤ acc2.length then acc2 else cardsUpTo top_k step xs acc2
      else cardsUpTo top_k step xs acc
    | none => cardsUpTo top_k step xs acc

/-- Strategy 1: `soup.find_all('article', limit=top_k)` then
`_parse_article_card`. -/
def strategyArticles (doc : List Node) (top_k : Nat) : List ModelInfo :=
  articleRecords (bsLimit top_k (collectList (isTagName "article") doc))

/-- Strategy 2: divs whose class matches `model|card`, limited to
`top_k * 2`, then `_parse_div_card` with a break at `top_k`. -/
def strategyDivs (doc : List Node) (top_k : Nat) : List ModelInfo :=
  cardsUpTo top_k parseDivCard
    (bsLimit (top_k * 2) (collectList isModelCardDiv doc)) []

/-- Strategy 3: anchors whose href matches the model shape, limited to
`top_k * 2`, then `_parse_link` with a break at `top_k`. -/
def strategyLinks (doc : List Node) (top_k : Nat) : List ModelInfo :=
  cardsUpTo top_k parseLink
    (bsLimit (top_k * 2) (collectList isModelLink doc)) []

/-- `HFModelListParser.parse_model_list`: strategy 2 runs only when
strategy 1 produced no usable record, strategy 3 only when strategy 2 also
produced none, and the final list is truncated to `top_k`. -/
def parse_model_list (doc : List Node) (top_k : Nat) : List ModelInfo :=
  let m1 := strategyArticles doc top_k
  let m2 := if m1 = [] then strategyDivs doc top_k else m1
  let m3 := if m2 = [] then strategyLinks doc top_k else m2
  m3.take top_k

/-- C3: the records returned by listing extraction are produced by exactly
one strategy of the ordered cascade — a later strategy's results appear
only when every earlier strategy yielded zero usable records, and the
output never mixes records from two strategies. -/
theorem cascade_single_strategy (doc : List Node) (top_k : Nat) :
    (strategyArticles doc top_k ≠ [] ∧
      parse_model_list doc top_k = (strategyArticles doc top_k).take top_k) ∨
    (strategyArticles doc top_k = [] ∧ strategyDivs doc top_k ≠ [] ∧
      parse_model_list doc top_k = (strategyDivs doc top_k).take top_k) ∨
    (strategyArticles doc top_k = [] ∧ strategyDivs doc top_k = [] ∧
      parse_model_list doc top_k = (strategyLinks doc top_k).take top_k) := by
  by_cases h1 : strategyArticles doc top_k = []
  · by_cases h2 : strategyDivs doc top_k = []
    · exact Or.inr (Or.inr ⟨h1, h2, by simp [parse_model_list, h1, h2]⟩)
    · exact Or.inr (Or.inl ⟨h1, h2, by simp [parse_model_list, h1, h2]⟩)
  · exact Or.inl ⟨h1, by simp [parse_model_list, h1]⟩

theorem parseArticleCard_fields {a : Node} {mi : ModelInfo}
    (h : parseArticleCard a = some mi) :
    (mi.model_id ≠ "" → mi.name ≠ "") ∧ ∀ t ∈ mi.tags, t.length < 50 := by
  unfold parseArticleCard at h
  cases hl : (collectList isModelLink a.children).head? with
  | none => rw [hl] at h; simp at h
  | some link =>
    rw [hl] at h
    simp only [Option.some.injEq] at h
    subst h
    constructor
    · intro hid
      by_cases hnm : pyStrip (nodeText link) = "" <;> simp_all
    · intro t ht
      simp only [cardTags, List.mem_filter, Bool.and_eq_true, decide_eq_true_eq] at ht
      exact ht.2.2

theorem parseDivCard_fields {d : Node} {mi : ModelInfo}
    (h : parseDivCard d = some mi) :
    (mi.model_id ≠ "" → mi.name ≠ "") ∧ mi.tags = [] := by
  unfold parseDivCard at h
  cases hl : (collectList isModelLink d.children).head? with
  | none => rw [hl] at h; simp at h
  | some link =>
    rw [hl] at h
    simp only [Option.some.injEq] at h
    subst h
    refine ⟨fun hid => ?_, rfl⟩
    by_cases hnm : pyStrip (nodeText link) = "" <;> simp_all

theorem parseLink_fields {l : Node} {mi : ModelInfo}
    (h : parseLink l = some mi) :
    (mi.model_id ≠ "" → mi.name ≠ "") ∧ mi.tags = [] := by
  unfold parseLink at h
  by_cases hh : isModelHref ((attrOf l "href").getD "") = true
  · rw [if_pos hh] at h
    simp only [Option.some.injEq] at h
    subst h
    refine ⟨fun hid => ?_, rfl⟩
    by_cases hnm : pyStrip (nodeText l) = "" <;> simp_all
  · rw [if_neg hh] at h; simp at h

theorem mem_articleRecords {mi : ModelInfo} :
    ∀ {xs : List Node}, mi ∈ articleRecords xs →
      ∃ a, parseArticleCard a = some mi ∧ mi.model_id ≠ "" := by
  intro xs
  induction xs with
  | nil => intro h; simp [articleRecords] at h
  | cons a rest ih =>
    intro h
    rw [articleRecords] at h
    cases hp : parseArticleCard a with
    | none => rw [hp] at h; exact ih h
    | some mi' =>
      rw [hp] at h
      dsimp only at h
      by_cases hid : mi'.model_id ≠ ""
      · rw [if_pos hid] at h
        rcases List.mem_cons.mp h with heq | hmem
        · exact ⟨a, by rw [hp, heq], heq ▸ hid⟩
        · exact ih hmem
      · rw [if_neg hid] at h; exact ih h

theorem mem_cardsUpTo {k : Nat} {step : Node → Option ModelInfo}
    {mi : ModelInfo} :
    ∀ {xs : List Node} {acc : List ModelInfo}, mi ∈ cardsUpTo k step xs acc →
      mi ∈ acc ∨ ∃ x, step x = some mi ∧ mi.model_id ≠ "" := by
  intro xs
  induction xs with
  | nil => intro acc h; rw [cardsUpTo] at h; exact Or.inl h
  | cons x rest ih =>
    intro acc h
    rw [cardsUpTo] at h
    cases hp : step x with
    | none => rw [hp] at h; exact ih h
    | some mi' =>
      rw [hp] at h
      dsimp only at h
      by_cases hid : mi'.model_id ≠ ""
      · rw [if_pos hid] at h
        by_cases hk : k ≤ (acc ++ [mi']).length
        · rw [if_pos hk] at h
          rcases List.mem_append.mp h with hacc | hone
          · exact Or.inl hacc
          · have heq := List.mem_singleton.mp hone
            exact Or.inr ⟨x, by rw [hp, heq], heq ▸ hid⟩
        · rw [if_neg hk] at h
          rcases ih h with hacc | hx
          · rcases List.mem_append.mp hacc with hacc' | hone
            · exact Or.inl hacc'
            · have heq := List.mem_singleton.mp hone
              exact Or.inr ⟨x, by rw [hp, heq], heq ▸ hid⟩
          · exact Or.inr hx
      · rw [if_neg hid] at h; exact ih h

/-- Every record produced by any strategy of `parse_model_list` has a
truthy identifier, a non-empty name, and only tags shorter than 50
characters. -/
theorem parse_model_list_fields {doc : List Node} {top_k : Nat}
    {mi : ModelInfo} (h : mi ∈ parse_model_list doc top_k) :
    mi.model_id ≠ "" ∧ mi.name ≠ "" ∧ ∀ t ∈ mi.tags, t.length < 50 := by
  have h3 := List.take_subset top_k _ h
  simp only [parse_model_list] at h3
  have hstrat : mi ∈ strategyArticles doc top_k ∨
      mi ∈ strategyDivs doc top_k ∨ mi ∈ strategyLinks doc top_k := by
    by_cases h1 : strategyArticles doc top_k = []
    · by_cases h2 : strategyDivs doc top_k = []
      · rw [h1, h2] at h3; simp at h3; exact Or.inr (Or.inr h3)
      · rw [h1] at h3; simp [h2] at h3; exact Or.inr (Or.inl h3)
    · simp [h1] at h3; exact Or.inl h3
  rcases hstrat with hs | hs | hs
  · rcases mem_articleRecords hs with ⟨a, hpa, hid⟩
    rcases parseArticleCard_fields hpa with ⟨hname, htags⟩
    exact ⟨hid, hname hid, htags⟩
  · rcases mem_cardsUpTo hs with hacc | ⟨x, hpx, hid⟩
    · simp at hacc
    · rcases parseDivCard_fields hpx with ⟨hname, htags⟩
      exact ⟨hid, hname hid, by rw [htags]; simp⟩
  · rcases mem_cardsUpTo hs with hacc | ⟨x, hpx, hid⟩
    · simp at hacc
    · rcases parseLink_fields hpx with ⟨hname, htags⟩
      exact ⟨hid, hname hid, by rw [htags]; simp⟩

/-- A well-formed listing page with one article card carrying a model link
and a tag badge, used as a concrete witness input. -/
def sampleArticleDoc : List Node :=
  [Node.elem "article" [] []
    [Node.elem "a" [] [("href", "/u/m")] [Node.text "MyModel"],
     Node.elem "span" ["tag"] [] [Node.text "nlp"]]]

/-- C6 amended: every record returned by the HF listing extraction carries
a non-empty identifier and a non-empty name. -/
theorem hf_listing_mandatory_fields (doc : List Node) (top_k : Nat) :
    ∀ mi ∈ parse_model_list doc top_k, mi.model_id ≠ "" ∧ mi.name ≠ "" :=
  fun _ hmi => ⟨(parse_model_list_fields hmi).1, (parse_model_list_fields hmi).2.1⟩

theorem hf_listing_mandatory_fields_witness :
    (⟨"u/m", "MyModel", "/u/m", ["nlp"]⟩ : ModelInfo) ∈
      parse_model_list sampleArticleDoc 5 ∧
    (⟨"u/m", "MyModel", "/u/m", ["nlp"]⟩ : ModelInfo).model_id ≠ "" ∧
    (⟨"u/m", "MyModel", "/u/m", ["nlp"]⟩ : ModelInfo).name ≠ "" :=
  ⟨by decide,
   hf_listing_mandatory_fields sampleArticleDoc 5 _ (by decide)⟩

/-! ## PWC listing extraction (`PapersWithCodeCrawler._parse_paper_item`)

Only the two fields whose presence gates the record — `title` and `url` —
are modelled; the best-effort `authors`/`stars`/`tasks`/
`implementation_count`/`date` extraction, which cannot drop a record, is
not. -/

structure PaperInfo where
  title : String
  url : String
deriving DecidableEq, Repr

/-- A `class_=` string query: BeautifulSoup matches it against each class
individually and against the full joined class string. -/
def classStrMatch (q : String) (n : Node) : Bool :=
  n.classList.contains q || String.intercalate " " n.classList == q

/-- `item.find(t)`. -/
def findFirstTag (t : String) (item : Node) : Option Node :=
  (collectList (isTagName t) item.children).head?

/-- `item.select_one('.c')`. -/
def findFirstClass (c : String) (item : Node) : Option Node :=
  (collectList (fun n => n.classList.contains c) item.children).head?

/-- `item.select_one('t1 t2')`: first `t2` descendant of a `t1` descendant. -/
def findFirstDescPair (outer inner : String) (item : Node) : Option Node :=
  (((collectList (isTagName outer) item.children).map
    (fun h => collectList (isTagName inner) h.children)).flatten).head?

/-- The title-element cascade of `_parse_paper_item` (lines 430–440). -/
def paperTitleElem (item : Node) : Option Node :=
  (findFirstTag "h1" item).orElse fun _ =>
  (findFirstTag "h2" item).orElse fun _ =>
  (findFirstTag "h3" item).orElse fun _ =>
  ((collectList (fun n => isTagName "a" n && classStrMatch "paper-card-title" n)
      item.children).head?).orElse fun _ =>
  (findFirstClass "paper-card-title" item).orElse fun _ =>
  (findFirstClass "item-title" item).orElse fun _ =>
  (findFirstDescPair "h1" "a" item).orElse fun _ =>
  (findFirstDescPair "h2" "a" item).orElse fun _ =>
  findFirstDescPair "h3" "a" item

/-- `urljoin(base, href)` for the href shapes the crawler produces: an
absolute URL is kept, a path-absolute href is appended to the base. -/
def urljoinApprox (base href : String) : String :=
  if ("http".data.isPrefixOf href.data) then href else base ++ href

/-- `_parse_paper_item`: a record is produced exactly when a title element
and, inside or at it, a link with an `href` are found; the stripped title
text — possibly empty — and the joined URL are recorded. -/
def parsePaperItem (base : String) (item : Node) : Option PaperInfo :=
  match paperTitleElem item with
  | none => none
  | some te =>
    let title := pyStrip (nodeText te)
    let linkElem := if te.tagName == some "a" then some te
                    else (collectList (isTagName "a") te.children).head?
    match linkElem with
    | some le =>
      (match attrOf le "href" with
       | some href => some ⟨title, urljoinApprox base href⟩
       | none => none)
    | none => none

/-- The paper-card selector cascade shared by `crawl_trending_papers`,
`crawl_papers_by_area` and `search_papers` (lines 167–173). -/
def pwcPaperItems (doc : List Node) : List Node :=
  let c1 := collectList (fun n => isTagName "div" n && classStrMatch "row paper-card" n) doc
  let c2 := if c1.isEmpty then collectList (fun n => isTagName "div" n && classStrMatch "paper-card" n) doc else c1
  let c3 := if c2.isEmpty then collectList (fun n => n.classList.contains "paper-card") doc else c2
  let c4 := if c3.isEmpty then collectList (fun n => n.classList.contains "paper-card-container") doc else c3
  if c4.isEmpty then collectList (fun n => n.classList.contains "infinite-item") doc else c4

/-- The listing-extraction loop of `crawl_trending_papers` (lines 178–183):
the first `top_k` card items, parsed, dropping items that yield no record. -/
def pwc_extract_listing (base : String) (doc : List Node) (top_k : Nat) :
    List PaperInfo :=
  ((pwcPaperItems doc).take top_k).filterMap (parsePaperItem base)

/-- A paper card whose heading holds a link but no text. -/
def emptyTitleCard : Node :=
  Node.elem "div" ["paper-card"] []
    [Node.elem "h1" [] [] [Node.elem "a" [] [("href", "/paper/x")] []]]

/-- C6 counterexample: on a card whose heading contains an empty-text link,
the PWC listing extraction returns a record whose human-readable name
(`title`) is empty — the extractor only checks that the `title` key exists,
not that it is non-empty. -/
theorem pwc_listing_title_can_be_empty :
    pwc_extract_listing "https://paperswithcode.com" [emptyTitleCard] 5 =
      [⟨"", "https://paperswithcode.com/paper/x"⟩] ∧
    (⟨"", "https://paperswithcode.com/paper/x"⟩ : PaperInfo).title = "" :=
  ⟨by decide, rfl⟩

/-! ## Detail-page file extraction (`HFModelCardParser._extract_files`)

A file entry carries the link text and href; the `size` field, filled from
a separate whole-document text scan (`find_next`), is not modelled. -/

structure FileInfo where
  name : String
  url : String
deriving DecidableEq, Repr

/-- `find(['div', 'section'], class_=re.compile(r'files?|models?'))`. -/
def isFilesSection (n : Node) : Bool :=
  (isTagName "div" n || isTagName "section" n) &&
    n.classList.any (fun c => containsSub c "file" || containsSub c "model")

/-- The alternatives of `re.compile(r'\.(bin|pt|pth|h5|onnx|safetensors|json|txt)')`. -/
def fileExts : List String :=
  [".bin", ".pt", ".pth", ".h5", ".onnx", ".safetensors", ".json", ".txt"]

/-- `find_all('a', href=re.compile(...))` inside the files section. -/
def isFileLink (n : Node) : Bool :=
  isTagName "a" n &&
    (attrOf n "href").any (fun h => fileExts.any (fun e => containsSub h e))

/-- `_extract_files`: every matching file link of the first files section,
with no bound on how many are collected. -/
def extract_files (doc : List Node) : List FileInfo :=
  match (collectList isFilesSection doc).head? with
  | none => []
  | some sec =>
    (collectList isFileLink sec.children).map
      (fun l => ⟨pyStrip (nodeText l), (attrOf l "href").getD ""⟩)

/-- A childless file link, replicated to build arbitrarily dense pages. -/
def fileLinkNode : Node := Node.elem "a" [] [("href", "model.bin")] []

/-- A files section holding `n` file links. -/
def docWithFiles (n : Nat) : List Node :=
  [Node.elem "div" ["files"] [] (List.replicate n fileLinkNode)]

theorem collectList_replicate_self {p : Node → Bool} {x : Node}
    (hx : collect p x = [x]) :
    ∀ n, collectList p (List.replicate n x) = List.replicate n x := by
  intro n
  induction n with
  | zero => rfl
  | succ k ih => simp [List.replicate_succ, collectList, hx, ih]

theorem collectList_replicate_nil {p : Node → Bool} {x : Node}
    (hx : collect p x = []) :
    ∀ n, collectList p (List.replicate n x) = [] := by
  intro n
  induction n with
  | zero => rfl
  | succ k ih => simp [List.replicate_succ, collectList, hx, ih]

theorem extract_files_docWithFiles (n : Nat) :
    extract_files (docWithFiles n) = List.replicate n ⟨"", "model.bin"⟩ := by
  have hsec : collectList isFilesSection (List.replicate n fileLinkNode) = [] :=
    collectList_replicate_nil (show collect isFilesSection fileLinkNode = [] from rfl) n
  have hlinks : collectList isFileLink (List.replicate n fileLinkNode) =
      List.replicate n fileLinkNode :=
    collectList_replicate_self (show collect isFileLink fileLinkNode = [fileLinkNode] from rfl) n
  have hmap : (List.replicate n fileLinkNode).map
      (fun l => (⟨pyStrip (nodeText l), (attrOf l "href").getD ""⟩ : FileInfo)) =
      List.replicate n ⟨"", "model.bin"⟩ := by
    rw [List.map_replicate]
    rfl
  simp [extract_files, docWithFiles, collectList, collect, isFilesSection,
    isTagName, containsSub, containsSubList, Node.classList, hsec, hlinks,
    Node.children, hmap]

/-- C9 counterexample: the extracted file list of a detail record is not
capped at any fixed bound — for every proposed bound there is a page whose
files section yields more entries. -/
theorem extract_files_not_capped :
    ¬ ∃ B : Nat, ∀ doc : List Node, (extract_files doc).length ≤ B := by
  rintro ⟨B, hB⟩
  have h := hB (docWithFiles (B + 1))
  rw [extract_files_docWithFiles, List.length_replicate] at h
  omega

/-- C9 amended: every tag of a record returned by the listing extraction is
shorter than the fixed 50-character bound (longer tag text never appears,
being dropped rather than truncated), but the extracted file list of a
detail record is not capped: a files section with `B + 1` matching links
yields more than `B` entries, for every `B`. -/
theorem tag_bound_and_files_uncapped :
    (∀ (doc : List Node) (top_k : Nat), ∀ mi ∈ parse_model_list doc top_k,
      ∀ t ∈ mi.tags, t.length < 50) ∧
    (∀ B : Nat, B < (extract_files (docWithFiles (B + 1))).length) := by
  constructor
  · intro doc top_k mi hmi t ht
    exact (parse_model_list_fields hmi).2.2 t ht
  · intro B
    rw [extract_files_docWithFiles, List.length_replicate]
    omega

/-! ## Result persistence (`_save_model_list`, `_save_paper_list`)

`_save_model_list` (and `_save_batch_result`) dump
`{task, sort, count: len(models), crawled_at, models}` with `open(path, 'w')`
— the record list exactly as given — to
`output_dir / task / f"models_{sort}_top{len(models)}.json"`;
`_save_paper_list` writes to
`output_dir / category / f"papers_{timestamp}.json"`.
The output directory is modelled as an association list from paths to
written documents, with `'w'` truncating the previous content at a path. -/

/-- The JSON document written by one `_save_model_list` call. -/
structure SavedModelList where
  task : String
  sort : String
  count : Nat
  crawled_at : String
  models : List ModelInfo
deriving DecidableEq, Repr

def save_model_list_payload (task sort crawledAt : String)
    (models : List ModelInfo) : SavedModelList :=
  ⟨task, sort, models.length, crawledAt, models⟩

def save_model_list_path (outputDir task sort : String) (n : Nat) : String :=
  outputDir ++ "/" ++ task ++ "/models_" ++ sort ++ "_top" ++ toString n ++ ".json"

def save_paper_list_path (outputDir category timestamp : String) : String :=
  outputDir ++ "/" ++ category ++ "/papers_" ++ timestamp ++ ".json"

/-- The output directory: every path with the document last written there. -/
abbrev Store := List (String × SavedModelList)

/-- `open(path, 'w')` + `json.dump(payload)`: replaces any previous content
at `path`. -/
def writeFile (st : Store) (path : String) (payload : SavedModelList) : Store :=
  (path, payload) :: st.filter (fun e => e.1 != path)

def readFile (st : Store) (path : String) : Option SavedModelList :=
  (st.find? (fun e => e.1 == path)).map (fun e => e.2)

/-- `HuggingFaceCrawler._save_model_list` acting on the store. -/
def save_model_list (st : Store) (outputDir task sort crawledAt : String)
    (models : List ModelInfo) : Store :=
  writeFile st (save_model_list_path outputDir task sort models.length)
    (save_model_list_payload task sort crawledAt models)

/-- Listing records `A`, `B`, `A'` where `A` and `A'` share an identifier. -/
def mA : ModelInfo := ⟨"u/m", "A", "/u/m", []⟩

def mB : ModelInfo := ⟨"v/n", "B", "/v/n", []⟩

def mA2 : ModelInfo := ⟨"u/m", "A2", "/u/m", []⟩

/-- C5 counterexample: saving the batch `[A, B, A']`, where `A` and `A'`
share an identifier, persists all 3 records verbatim (not 2): the store
performs no deduplication by identifier. -/
theorem save_does_not_dedup :
    mA.model_id = mA2.model_id ∧ mA ≠ mA2 ∧
    (save_model_list_payload "t" "trending" "ts" [mA, mB, mA2]).models =
      [mA, mB, mA2] ∧
    ¬ (save_model_list_payload "t" "trending" "ts" [mA, mB, mA2]).count = 2 :=
  ⟨rfl, by decide, rfl, by decide⟩

/-- C5 amended: the store's save persists the batch exactly as given —
duplicate identifiers included, in discovery order — with `count` equal to
the full batch length; no deduplication by identifier is performed. -/
theorem save_persists_batch_verbatim (task sort crawledAt : String)
    (models : List ModelInfo) :
    (save_model_list_payload task sort crawledAt models).models = models ∧
    (save_model_list_payload task sort crawledAt models).count = models.length :=
  ⟨rfl, rfl⟩

/-- C8 counterexample: two saves of different one-record batches resolve to
the same destination (the hf model-list filename carries no timestamp, only
sort and count), and the second save overwrites the unit written by the
first. -/
theorem hf_save_overwrites_previous :
    save_model_list_path "out" "t" "trending" [mA].length =
      save_model_list_path "out" "t" "trending" [mB].length ∧
    readFile
        (save_model_list (save_model_list [] "out" "t" "trending" "ts1" [mA])
          "out" "t" "trending" "ts2" [mB])
        (save_model_list_path "out" "t" "trending" [mA].length) =
      some (save_model_list_payload "t" "trending" "ts2" [mB]) ∧
    save_model_list_payload "t" "trending" "ts2" [mB] ≠
      save_model_list_payload "t" "trending" "ts1" [mA] :=
  ⟨rfl, by decide, by decide⟩

/-- C8 amended: the pwc paper-list save writes to a timestamped destination
— distinct timestamps give distinct paths, so no overwrite — while the hf
model-list save's destination is determined by directory, task, sort and
record count alone, so two saves with equally sized batches hit the same
destination and the later one overwrites the earlier unit. -/
theorem save_destination_characterization
    (outputDir category t1 t2 task sort : String) (m1 m2 : List ModelInfo)
    (ht : t1 ≠ t2) (hm : m1.length = m2.length) :
    save_paper_list_path outputDir category t1 ≠
      save_paper_list_path outputDir category t2 ∧
    save_model_list_path outputDir task sort m1.length =
      save_model_list_path outputDir task sort m2.length := by
  constructor
  · intro heq
    apply ht
    have hd := congrArg String.data heq
    simp only [save_paper_list_path, String.data_append] at hd
    simp only [List.append_assoc] at hd
    have h1 := List.append_cancel_left hd
    have h2 := List.append_cancel_left h1
    have h3 := List.append_cancel_left h2
    have h4 := List.append_cancel_left h3
    exact String.ext (List.append_cancel_right h4)
  · rw [hm]

theorem save_destination_characterization_witness :
    save_paper_list_path "out" "c" "20240101_000000" ≠
      save_paper_list_path "out" "c" "20240101_000001" ∧
    save_model_list_path "out" "t" "trending" [mA].length =
      save_model_list_path "out" "t" "trending" [mB].length :=
  save_destination_characterization "out" "c" "20240101_000000"
    "20240101_000001" "t" "trending" [mA] [mB] (by decide) rfl

theorem tag_bound_and_files_uncapped_witness :
    (⟨"u/m", "MyModel", "/u/m", ["nlp"]⟩ : ModelInfo) ∈
      parse_model_list sampleArticleDoc 5 ∧
    "nlp" ∈ (⟨"u/m", "MyModel", "/u/m", ["nlp"]⟩ : ModelInfo).tags ∧
    ("nlp" : String).length < 50 ∧
    0 < (extract_files (docWithFiles 1)).length :=
  ⟨by decide, by decide,
   tag_bound_and_files_uncapped.1 sampleArticleDoc 5
     ⟨"u/m", "MyModel", "/u/m", ["nlp"]⟩ (by decide) "nlp" (by decide),
   tag_bound_and_files_uncapped.2 0⟩

/-! ## Listing crawl entry point (`HuggingFaceCrawler.crawl_models_by_task`) -/

/-- `TaskManager.get_task_by_tag`: `self.tasks.get(tag)` over the loaded
catalog, here an association of tags to task display names. -/
def get_task_by_tag (tasks : List (String × String)) (tag : String) :
    Option String :=
  (tasks.find? (fun p => p.1 == tag)).map (fun p => p.2)

/-- The failures `crawl_models_by_task` can raise: the `ValueError` for an
unknown task tag, or a propagated fetch failure. -/
inductive CrawlErr where
  | valueError (tag : String)
  | fetch (e : FetchErr)
deriving DecidableEq, Repr

/-- `crawl_models_by_task`: validate the tag against the catalog (raising
`ValueError` for an unknown tag), then GET the listing page, parse it,
absolutize relative record URLs, and save the list.  Returns the result,
the number of HTTP requests issued, and the resulting store.  `http` maps a
URL and query parameters to a fetched document or a fetch failure. -/
def crawl_models_by_task (tasks : List (String × String))
    (base outputDir tag sort crawledAt : String) (top_k : Nat)
    (http : String → List (String × String) → Except FetchErr (List Node))
    (st : Store) : Except CrawlErr (List ModelInfo) × Nat × Store :=
  match get_task_by_tag tasks tag with
  | none => (Except.error (CrawlErr.valueError tag), 0, st)
  | some _ =>
    match http (base ++ "/models") [("pipeline_tag", tag), ("sort", sort)] with
    | Except.error e => (Except.error (CrawlErr.fetch e), 1, st)
    | Except.ok doc =>
      let ms := (parse_model_list doc top_k).map (fun m =>
        if "http".data.isPrefixOf m.url.data then m
        else ⟨m.model_id, m.name, urljoinApprox base m.url, m.tags⟩)
      (Except.ok ms, 1, save_model_list st outputDir tag sort crawledAt ms)

/-- C10: for a task tag absent from the catalog, the listing crawl fails
immediately with the unknown-tag validation error, before issuing any HTTP
request and before writing any output — the store is unchanged. -/
theorem unknown_tag_fails_before_any_effect (tasks : List (String × String))
    (base outputDir tag sort crawledAt : String) (top_k : Nat)
    (http : String → List (String × String) → Except FetchErr (List Node))
    (st : Store) (h : get_task_by_tag tasks tag = none) :
    crawl_models_by_task tasks base outputDir tag sort crawledAt top_k http st =
      (Except.error (CrawlErr.valueError tag), 0, st) := by
  simp [crawl_models_by_task, h]

theorem unknown_tag_fails_before_any_effect_witness :
    get_task_by_tag [("text-classification", "Text Classification")]
      "no-such-task" = none ∧
    crawl_models_by_task [("text-classification", "Text Classification")]
      "https://hf-mirror.com" "outputs/hf_models" "no-such-task" "trending"
      "ts" 10 (fun _ _ => Except.error FetchErr.timeout) [] =
      (Except.error (CrawlErr.valueError "no-such-task"), 0, []) :=
  ⟨by decide,
   unknown_tag_fails_before_any_effect _ _ _ _ _ _ _ _ _ (by decide)⟩

/-! ## Concurrent detail enrichment (`crawl_papers_batch`)

```
future_to_paper = {executor.submit(self.crawl_paper_details, paper['url']): paper
                   for paper in papers if 'url' in paper}
detailed_papers = []
for future in as_completed(future_to_paper):
    paper = future_to_paper[future]
    try:
        details = future.result()
        paper.update(details)
        detailed_papers.append(paper)
    except Exception as e:
        detailed_papers.append(paper)
```
The records are opaque (the code treats them as dicts); per-record detail
fetching is a function to a result, and the nondeterministic `as_completed`
order is a `completion` list constrained to be a permutation of the
submitted records. -/

/-- The per-future body: a resolved detail fetch is merged into the record
(`paper.update(details)`), a raised one leaves the record unchanged. -/
def enrichStep (fetchDetail : α → Except ε δ) (merge : α → δ → α) (p : α) : α :=
  match fetchDetail p with
  | Except.ok d => merge p d
  | Except.error _ => p

/-- The dict comprehension submitting one future per record that carries a
URL (`for paper in papers if 'url' in paper`). -/
def submitted_futures (papers : List α) (hasUrl : α → Bool) : List α :=
  papers.filter hasUrl

/-- `PapersWithCodeCrawler.crawl_papers_batch` (and, identically shaped,
`HuggingFaceCrawler.crawl_models_batch`'s enrichment loop): with
`fetch_details` unset the input is returned; otherwise the submitted
futures are resolved and appended in completion order — `completion`, the
order `as_completed` yields the submitted records, is a parameter
constrained to be a permutation of `submitted_futures` wherever the
operation is reasoned about. -/
def crawl_papers_batch (fetchDetails : Bool) (papers : List α)
    (fetchDetail : α → Except ε δ) (merge : α → δ → α)
    (completion : List α) : List α :=
  if fetchDetails then completion.map (enrichStep fetchDetail merge)
  else papers

/-- C4: when every input record carries its URL and the futures resolve in
any order (`completion` a permutation of the submitted records), the batch
enrichment returns exactly one output record per input record — the batch
is, up to completion order, the input with each record either merged with
its detail fields or, on failure, unchanged — and in particular every
record whose detail fetch fails appears unchanged in the output; no failure
aborts the batch. -/
theorem enrichment_total_under_partial_failure {α ε δ : Type}
    (papers completion : List α) (hasUrl : α → Bool)
    (fetchDetail : α → Except ε δ) (merge : α → δ → α)
    (hAll : ∀ p ∈ papers, hasUrl p = true)
    (hperm : completion.Perm (submitted_futures papers hasUrl)) :
    (crawl_papers_batch true papers fetchDetail merge completion).length =
      papers.length ∧
    (crawl_papers_batch true papers fetchDetail merge completion).Perm
      (papers.map (enrichStep fetchDetail merge)) ∧
    ∀ p ∈ papers, (∃ e, fetchDetail p = Except.error e) →
      p ∈ crawl_papers_batch true papers fetchDetail merge completion := by
  have hfilter : submitted_futures papers hasUrl = papers :=
    List.filter_eq_self.mpr hAll
  rw [hfilter] at hperm
  have hmap : crawl_papers_batch true papers fetchDetail merge completion =
      completion.map (enrichStep fetchDetail merge) := by
    simp [crawl_papers_batch]
  refine ⟨?_, ?_, ?_⟩
  · rw [hmap, List.length_map, hperm.length_eq]
  · rw [hmap]; exact hperm.map _
  · intro p hp hfail
    rw [hmap]
    have hstep : enrichStep fetchDetail merge p = p := by
      rcases hfail with ⟨e, he⟩
      simp [enrichStep, he]
    have hmem : p ∈ papers.map (enrichStep fetchDetail merge) :=
      hstep ▸ List.mem_map_of_mem _ hp
    exact ((hperm.map (enrichStep fetchDetail merge)).mem_iff).mpr hmem

theorem enrichment_total_under_partial_failure_witness :
    (crawl_papers_batch true [1, 2]
        (fun n => if n = 1 then Except.error () else Except.ok n)
        (fun a b : Nat => a + b) [2, 1]).length = 2 ∧
    (1 : Nat) ∈ crawl_papers_batch true [1, 2]
        (fun n => if n = 1 then Except.error () else Except.ok n)
        (fun a b : Nat => a + b) [2, 1] :=
  ⟨(enrichment_total_under_partial_failure [1, 2] [2, 1] (fun _ => true)
      (fun n => if n = 1 then Except.error () else Except.ok n)
      (fun a b => a + b) (by decide) (by decide)).1,
   (enrichment_total_under_partial_failure [1, 2] [2, 1] (fun _ => true)
      (fun n => if n = 1 then Except.error () else Except.ok n)
      (fun a b => a + b) (by decide) (by decide)).2.2 1 (by decide)
     ⟨(), rfl⟩⟩

end AutoForge
